import Mathlib

/-
  Verification development for the endpoint-routing repository.

  The repository is JavaScript.  We shallowly embed the routing core:
  JSON-like values stand for the plain objects the code manipulates,
  stateful mutation becomes explicit value passing, dynamic module
  loading becomes an abstract resolver function, and thrown exceptions
  become Except values.  JavaScript strings are modelled as lists of
  characters so that every operation is a structurally recursive,
  kernel-computable function.  Each definition is translated from the
  source file and lines named in its doc comment.
-/

/-- A JavaScript string, modelled as its list of characters. -/
abbrev Str := List Char

/-- Conversion from a Lean string literal to the model type. -/
def strOf (s : String) : Str := s.data

/-- Uppercasing of one character as done by the JavaScript
toUpperCase method on the ASCII range used by HTTP method names. -/
def jsCharUpper (c : Char) : Char :=
  if 97 ≤ c.toNat ∧ c.toNat ≤ 122 then Char.ofNat (c.toNat - 32) else c

/-- The JavaScript toUpperCase method on our model strings. -/
def jsToUpper (s : Str) : Str := s.map jsCharUpper

/-- The JavaScript startsWith method. -/
def strStartsWith : Str → Str → Bool
  | _, [] => true
  | [], _ :: _ => false
  | a :: s, b :: p => a == b && strStartsWith s p

/-- The JavaScript endsWith method. -/
def strEndsWith (s p : Str) : Bool :=
  strStartsWith s.reverse p.reverse

/-- Helper for jsSplitOn: accumulates the current chunk in reverse. -/
def jsSplitAux (c : Char) : List Char → List Char → List Str
  | [], acc => [acc.reverse]
  | x :: xs, acc =>
    if x == c then acc.reverse :: jsSplitAux c xs [] else jsSplitAux c xs (x :: acc)

/-- The JavaScript split method with a one-character separator. -/
def jsSplitOn (c : Char) (s : Str) : List Str := jsSplitAux c s []

/-- A JSON-like JavaScript value as it occurs in the compiled route
registry: either a string or a plain object, the latter modelled as an
insertion-ordered association list, matching JavaScript property order
for non-numeric keys. -/
inductive JsVal where
  | str (s : Str)
  | obj (props : List (Str × JsVal))

/-- A JavaScript object: an insertion-ordered list of key-value pairs. -/
abbrev JsObj := List (Str × JsVal)

/-- Own-property lookup on an object, first matching key. -/
def jsGet (l : JsObj) (k : Str) : Option JsVal :=
  (l.find? (fun kv => kv.1 == k)).map (fun kv => kv.2)

/-- Property read on a value.  Reading a routing key or the filePath
key from a string value yields undefined, modelled as none: string
own properties are numeric indices and length, never keys that start
with a slash, never filePath, and never an uppercased method name. -/
def getProp (v : JsVal) (k : Str) : Option JsVal :=
  match v with
  | JsVal.obj l => jsGet l k
  | JsVal.str _ => none

/-- The enumerable own properties of a value, as iterated by a
JavaScript for-in loop.  String indices never begin with a slash, so
for the keys the matcher probes a string contributes nothing. -/
def propsOf (v : JsVal) : JsObj :=
  match v with
  | JsVal.obj l => l
  | JsVal.str _ => []

/-- JavaScript truthiness for the values of our model: the empty
string is falsy, every other string and every object is truthy. -/
def truthy (v : JsVal) : Bool :=
  match v with
  | JsVal.str s => !(s == [])
  | JsVal.obj _ => true

/-- Property assignment on an object: an existing key is updated in
place keeping its position, a new key is appended, matching
JavaScript insertion-order semantics. -/
def setProp (l : JsObj) (k : Str) (v : JsVal) : JsObj :=
  if l.any (fun kv => kv.1 == k) then
    l.map (fun kv => if kv.1 == k then (k, v) else kv)
  else
    l ++ [(k, v)]

/-- Object spread of two objects, as in the source expression that
merges pre-existing request parameters with the extracted ones: the
second operand wins on key collision. -/
def objectSpread2 (a b : JsObj) : JsObj :=
  b.foldl (fun acc kv => setProp acc kv.1 kv.2) a

/-- From src/index.js line 178: the request path split on slashes with
empty segments discarded. -/
def splitSegments (path : Str) : List Str :=
  (jsSplitOn ('/') path).filter (fun s => !(s == []))

/-- From src/index.js lines 182 to 205: the segment descent loop of
matchRoute.  An exact child keyed by slash plus the segment is taken
first; otherwise the first key starting with slash-colon in property
order is the dynamic child and the segment is bound under the key
minus its first two characters; otherwise the match fails. -/
def matchLoop (cur : JsVal) (segments : List Str) (params : JsObj) :
    Option (JsVal × JsObj) :=
  match segments with
  | [] => some (cur, params)
  | seg :: rest =>
    let exactKey := strOf ("/") ++ seg
    match getProp cur exactKey with
    | some next => matchLoop next rest params
    | none =>
      match (propsOf cur).find? (fun kv => strStartsWith kv.1 (strOf ("/:"))) with
      | some kv => matchLoop kv.2 rest (setProp params (kv.1.drop 2) (JsVal.str seg))
      | none => none

/-- From src/index.js lines 176 to 211: matchRoute.  On success the
accumulated bindings are injected into the request object only when
it already has a truthy params property, by spreading the existing
params then the extracted ones.  On failure the request object is
returned untouched.  The variant embedded after the separator in
src/README.md differs only in injecting whenever the request object
itself is truthy; every theorem below exercises requests on which the
two variants agree. -/
def matchRoute (routeRegistry : JsVal) (path : Str) (req : JsObj) :
    Option JsVal × JsObj :=
  match matchLoop routeRegistry (splitSegments path) [] with
  | none => (none, req)
  | some (node, params) =>
    match jsGet req (strOf ("params")) with
    | some pv =>
      if truthy pv then
        (some node, setProp req (strOf ("params")) (JsVal.obj (objectSpread2 (propsOf pv) params)))
      else
        (some node, req)
    | none => (some node, req)

/-- From src/index.js line 219: formatHTTPMethod uppercases the
requested method. -/
def formatHTTPMethod (method : Str) : Str :=
  jsToUpper method

/-- From src/index.js lines 228 to 231: validRouteNode.  The matched
node must be a non-null object whose entry for the method is truthy
and itself has a truthy filePath property.  A null match result fails
the truthiness conjunct, a string fails the typeof object conjunct. -/
def validRouteNode (routeNode : Option JsVal) (method : Str) : Bool :=
  match routeNode with
  | none => false
  | some (JsVal.str _) => false
  | some (JsVal.obj l) =>
    match jsGet l method with
    | none => false
    | some mv =>
      if truthy mv then
        match getProp mv (strOf ("filePath")) with
        | none => false
        | some fv => truthy fv
      else false

/-- From src/index.js line 240: retrieveRouteNodePath reads the
filePath property of the method entry of the route node. -/
def retrieveRouteNodePath (routeNode : Option JsVal) (method : Str) : Option JsVal :=
  match routeNode with
  | none => none
  | some v =>
    match getProp v method with
    | none => none
    | some mv => getProp mv (strOf ("filePath"))

/-- The structured error shape thrown by the dispatcher, from
src/index.js lines 88, 111 and 161.  The human-readable error string
merely interpolates the method and is not modelled. -/
inductive RouteError where
  | structured (success : Bool) (code : Str) (status : Nat)
  | jsError

/-- The value exported for one HTTP method by a route entry file: a
function, identified by an abstract name, or some non-function value. -/
inductive HVal where
  | fn (name : Str)
  | nonFunction

/-- The result of dynamically importing a route entry file.  The
methods field is the default export when it is a non-null object,
and none when the module has no usable default export, in which case
a property access on it raises. -/
structure JsModule where
  methods : Option (List (Str × HVal))

/-- Lookup in a method-to-handler table of a module default export. -/
def modGet (tbl : List (Str × HVal)) (k : Str) : Option HVal :=
  (tbl.find? (fun kv => kv.1 == k)).map (fun kv => kv.2)

/-- An abstract code resolver: what the dynamic import of a file path
produces, none when the import rejects.  This stands for the host
module system, which is outside the routing core. -/
abbrev Resolver := Str → Option JsModule

/-- From src/index.js lines 144 to 147: retrieveModuleFromFile imports
the stored file path.  A non-string stored path coerces to a garbage
specifier whose import rejects, modelled as none. -/
def retrieveModuleFromFile (resolve : Resolver) (filePath : Option JsVal) : Option JsModule :=
  match filePath with
  | some (JsVal.str s) => resolve s
  | _ => none

/-- From src/index.js lines 157 to 164: retrieveHandlerFromModule
indexes the default export with the uppercased method.  When the
entry is not a function the function raises before returning: the
console.error line references an undefined variable, so a
ReferenceError escapes; either way an exception propagates, and when
the default export is missing the property access itself raises. -/
def retrieveHandlerFromModule (m : JsModule) (method : Str) : Option Str :=
  match m.methods with
  | none => none
  | some tbl =>
    match modGet tbl method with
    | some (HVal.fn h) => some h
    | _ => none

/-- The dispatcher state of the EndpointRouting class, src/index.js
lines 36 to 45: the parsed registry and the allowedMethods whitelist,
none when the constructor received null. -/
structure Router where
  routeRegistry : JsVal
  allowedMethods : Option (List Str)

/-- From src/index.js line 135: isSupportedHTTPMethod evaluates the
conjunction of the whitelist with a membership test.  When the
whitelist is null the conjunction short-circuits to null, a falsy
value, so the caller treats the method as unsupported. -/
def isSupportedHTTPMethod (r : Router) (method : Str) : Bool :=
  match r.allowedMethods with
  | none => false
  | some l => l.contains method

/-- From src/index.js lines 108 to 123: retrieveHandlerFromURLPath.
The method check throws the structured 405 error; an invalid route
node throws a bare Error; the matcher is called with an undefined
request argument, defaulted to a fresh empty object, so the caller
request is never handed to it. -/
def retrieveHandlerFromURLPath (r : Router) (resolve : Resolver) (path method : Str) :
    Except RouteError Str :=
  if isSupportedHTTPMethod r method = true then
    let routeNode := (matchRoute r.routeRegistry path []).1
    if validRouteNode routeNode method = true then
      match retrieveModuleFromFile resolve (retrieveRouteNodePath routeNode method) with
      | none => Except.error RouteError.jsError
      | some m =>
        match retrieveHandlerFromModule m method with
        | some h => Except.ok h
        | none => Except.error RouteError.jsError
    else
      Except.error RouteError.jsError
  else
    Except.error (RouteError.structured false (strOf ("NOT_ALLOWED")) 405)

/-- From src/index.js lines 54 to 65: doesEndpointExist uppercases the
method, tries to retrieve the handler, and converts any thrown error
into false; a retrieved handler is a function, hence truthy. -/
def doesEndpointExist (r : Router) (resolve : Resolver) (path method : Str) : Bool :=
  match retrieveHandlerFromURLPath r resolve path (formatHTTPMethod method) with
  | Except.ok _ => true
  | Except.error _ => false

/-- From src/index.js lines 79 to 97: simulatePathRequest uppercases
the method, and any error thrown while retrieving the handler is
replaced by the structured NOT_FOUND 404 error.  On success the
handler is invoked with the caller request and response objects and
its result or exception propagates verbatim; we return the handler
name together with the request object exactly as the handler
receives it. -/
def simulatePathRequest (r : Router) (resolve : Resolver) (path method : Str) (req : JsObj) :
    Except RouteError (Str × JsObj) :=
  match retrieveHandlerFromURLPath r resolve path (formatHTTPMethod method) with
  | Except.error _ => Except.error (RouteError.structured false (strOf ("NOT_FOUND")) 404)
  | Except.ok h => Except.ok (h, req)

/-- From src/lib/utilities.js line 162 and src/index.js line 333:
formatSegment turns a bracketed directory name into a slash-colon
dynamic key via the regular expression that requires at least one
character between the brackets, and prefixes a slash otherwise. -/
def formatSegment (segment : Str) : Str :=
  if strStartsWith segment (strOf ("[")) && strEndsWith segment (strOf ("]"))
      && decide (3 ≤ segment.length) then
    strOf ("/:") ++ ((segment.drop 1).dropLast)
  else
    strOf ("/") ++ segment

/-- From src/lib/utilities.js lines 172 to 175 and src/index.js lines
348 to 352: the routing key of one directory segment, bracketed names
going through formatSegment. -/
def segmentKey (segment : Str) : Str :=
  if strStartsWith segment (strOf ("[")) && strEndsWith segment (strOf ("]")) then
    formatSegment segment
  else
    strOf ("/") ++ segment

/-- The child object stored under a key, a fresh empty object when the
key is absent, matching the create-if-falsy step of insertRoute.  A
truthy string value cannot occur at a routing key of a
compiler-produced tree. -/
def childProps (v : Option JsVal) : JsObj :=
  match v with
  | some (JsVal.obj l) => l
  | _ => []

/-- From src/lib/utilities.js lines 166 to 192 and src/index.js lines
343 to 369: the segment walk of insertRoute.  The last segment
receives the method entry holding the file path; earlier segments
create or traverse interior objects. -/
def insertSegs : JsObj → List Str → Str → Str → JsObj
  | o, [], _, _ => o
  | o, [seg], method, fp =>
    let k := segmentKey seg
    let cur := childProps (jsGet o k)
    setProp o k (JsVal.obj (setProp cur method (JsVal.obj [(strOf ("filePath"), JsVal.str fp)])))
  | o, seg :: rest, method, fp =>
    let k := segmentKey seg
    let cur := childProps (jsGet o k)
    setProp o k (JsVal.obj (insertSegs cur rest method fp))

/-- From src/lib/utilities.js lines 166 to 192: insertRoute splits the
accumulated route path into nonempty segments and walks them.  An
empty route path yields no segments and the tree is left unchanged. -/
def insertRoute (nestedRoutes : JsObj) (fullPath method filePath : Str) : JsObj :=
  insertSegs nestedRoutes (splitSegments fullPath) method filePath

/-- One entry of a handler directory: a subdirectory with its own
entries, or a file whose dynamic import yields a module, none when
the import rejects. -/
inductive FSEntry where
  | dir (name : Str) (children : List FSEntry)
  | file (name : Str) (mod : Option JsModule)

/-- From src/lib/utilities.js line 116: the lib exclusion filter.  A
directory is skipped only when the blacklist is an actual array that
contains its name; a null blacklist is not an array, so nothing is
skipped and no error occurs. -/
def libBlacklistSkips (pathBlacklist : Option (List Str)) (file : Str) : Bool :=
  match pathBlacklist with
  | none => false
  | some l => l.contains file

/-- From src/index.js line 294: the legacy exclusion filter calls
indexOf directly on the blacklist.  With the default null blacklist
this property access raises a TypeError, modelled as the error case;
with an array it is the membership test. -/
def legacyBlacklistIndexOf (pathBlacklist : Option (List Str)) (file : Str) :
    Except Str Bool :=
  match pathBlacklist with
  | none => Except.error (strOf ("TypeError: cannot read indexOf of null"))
  | some l => Except.ok (l.contains file)

/-- From src/lib/utilities.js lines 132 to 142: registration of every
method of a loaded entry file, one insertRoute call per method key of
the default export, storing the relative file path. -/
def registerModuleMethods (nested : JsObj) (tbl : List (Str × HVal)) (basePath filePath : Str) :
    JsObj :=
  tbl.foldl (fun acc kv => insertRoute acc basePath kv.1 filePath) nested

/-- From src/lib/utilities.js lines 105 to 149: the lib loadRoutes,
whose recursion passes the accumulator and paths correctly.  The walk
is depth-first in directory-listing order; a blacklisted directory is
pruned; an entry file whose import rejects or whose default export is
not a non-null object is logged and skipped without aborting; any
other file is ignored.  The fuel argument only bounds the recursion
depth for Lean and exceeds the height of every tree we evaluate. -/
def loadRoutes : Nat → JsObj → Str → List FSEntry → Option (List Str) → Str → JsObj
  | 0, nested, _, _, _, _ => nested
  | _ + 1, nested, _, [], _, _ => nested
  | fuel + 1, nested, dp, FSEntry.dir name sub :: rest, bl, basePath =>
    if libBlacklistSkips bl name then
      loadRoutes fuel nested dp rest bl basePath
    else
      loadRoutes fuel
        (loadRoutes fuel nested (dp ++ strOf ("/") ++ name) sub bl
          (basePath ++ strOf ("/") ++ name))
        dp rest bl basePath
  | fuel + 1, nested, dp, FSEntry.file name mod :: rest, bl, basePath =>
    let nested1 :=
      if name == strOf ("index.js") then
        match mod with
        | none => nested
        | some m =>
          match m.methods with
          | none => nested
          | some tbl => registerModuleMethods nested tbl basePath (dp ++ strOf ("/") ++ name)
      else nested
    loadRoutes fuel nested1 dp rest bl basePath

/-- From src/lib/utilities.js lines 19 to 36: resolveAndValidatePath.
Path resolution is abstracted into the three observable facts the
function consults: whether the path exists, whether its extension is
json, and whether it is a directory. -/
def resolveAndValidatePath (pathExists isJson isDir mustExist mustBeJson mustBeDir : Bool) :
    Except Str Unit :=
  if mustExist && !pathExists then
    Except.error (strOf ("Path does not exist"))
  else if mustBeJson && !isJson then
    Except.error (strOf ("Expected a json file"))
  else if mustBeDir && pathExists && !isDir then
    Except.error (strOf ("Expected a directory"))
  else
    Except.ok ()

/-- The facts about the ambient filesystem that the lib
buildEndpointRoutes consults: validity of the registry output path,
validity of the handlers root, the listing of the handlers root, and
whether the final registry write succeeds. -/
structure BuildEnv where
  outputExists : Bool
  outputIsJson : Bool
  handlersExists : Bool
  handlersIsDir : Bool
  handlersEntries : List FSEntry
  writeSucceeds : Bool

/-- From src/lib/utilities.js lines 61 to 94: the lib
buildEndpointRoutes.  Both configured paths are validated before the
try block, so a validation failure rejects the returned promise.
Inside the try block the routes are compiled and written; any error
there, including a failing registry write, is caught and logged and
the promise resolves with no value, modelled as ok none.  A
successful run resolves after writing the compiled registry,
modelled as ok some. -/
def buildEndpointRoutes (env : BuildEnv) (pathBlacklist : Option (List Str)) (fuel : Nat) :
    Except Str (Option JsObj) :=
  match resolveAndValidatePath env.outputExists env.outputIsJson false true true false with
  | Except.error e => Except.error e
  | Except.ok _ =>
    match resolveAndValidatePath env.handlersExists true env.handlersIsDir true false true with
    | Except.error e => Except.error e
    | Except.ok _ =>
      let nestedRoutes := loadRoutes fuel [] (strOf ("endpoints")) env.handlersEntries pathBlacklist []
      if env.writeSucceeds then Except.ok (some nestedRoutes) else Except.ok none

/-- True when a key begins with a slash character.  Every routing key
produced by the compiler satisfies this; no uppercased HTTP method
does. -/
def headSlash (k : Str) : Bool :=
  match k with
  | c :: _ => c == '/'
  | [] => false

/-- All keys of an object begin with a slash. -/
def allKeysSlash (o : JsObj) : Bool :=
  o.all (fun kv => headSlash kv.1)

/-- Fixture: the stored file path of the route compiled from the
directory a. -/
def fpA : Str := strOf ("endpoints/a/index.js")

/-- Fixture: a registry holding one route at path a with one POST
handler, as the compiler inserts it. -/
def regA : JsObj := insertRoute [] (strOf ("/a")) (strOf ("POST")) fpA

/-- Fixture: the module exporting one POST handler. -/
def modA : JsModule := JsModule.mk (some [(strOf ("POST"), HVal.fn (strOf ("postHandler")))])

/-- Fixture: a resolver that loads the module stored at the path of
the a route and rejects every other import. -/
def resolveA : Resolver := fun p => if p == fpA then some modA else none

/-- Fixture: the stored file path of the route compiled from the
directory path users bracket userId. -/
def fpUsers : Str := strOf ("endpoints/users/[userId]/index.js")

/-- Fixture: the registry compiled from the directory path users
bracket userId with a GET handler, via insertRoute. -/
def regUsers : JsObj := insertRoute [] (strOf ("/users/[userId]")) (strOf ("GET")) fpUsers

/-- Fixture: the module exporting one GET handler. -/
def modUsers : JsModule := JsModule.mk (some [(strOf ("GET"), HVal.fn (strOf ("getUser")))])

/-- Fixture: a resolver for the users route module. -/
def resolveUsers : Resolver := fun p => if p == fpUsers then some modUsers else none

/-- Fixture: the dispatcher over the users registry with GET
whitelisted. -/
def routerUsers : Router := Router.mk (JsVal.obj regUsers) (some [strOf ("GET")])

/-- Fixture: a leaf route node reached through the literal child. -/
def litNode : JsVal :=
  JsVal.obj [(strOf ("GET"), JsVal.obj [(strOf ("filePath"), JsVal.str (strOf ("lit")))])]

/-- Fixture: a leaf route node reached through the dynamic child. -/
def dynNode : JsVal :=
  JsVal.obj [(strOf ("GET"), JsVal.obj [(strOf ("filePath"), JsVal.str (strOf ("dyn")))])]

/-- Fixture: a registry level whose dynamic child is listed before its
literal child named users, so that only the exact-first rule can pick
the literal branch. -/
def regSiblings : JsVal :=
  JsVal.obj [(strOf ("/:id"), dynNode), (strOf ("/users"), litNode)]

/-- Fixture: a request object with an empty pre-existing params
object, on which both matchRoute variants behave identically. -/
def reqEmptyParams : JsObj := [(strOf ("params"), JsVal.obj [])]

/-- Fixture: the stored file path of the route compiled from the
directory x. -/
def fpX : Str := strOf ("endpoints/x/index.js")

/-- Fixture: a handler directory with one subdirectory x whose entry
file declares one handler under the given method name, exactly as
authored. -/
def treeX (k : Str) : List FSEntry :=
  [FSEntry.dir (strOf ("x"))
    [FSEntry.file (strOf ("index.js")) (some (JsModule.mk (some [(k, HVal.fn (strOf ("h")))])))]]

/-- Fixture: the registry compiled by the lib loadRoutes from treeX. -/
def regX (k : Str) : JsObj :=
  loadRoutes 3 [] (strOf ("endpoints")) (treeX k) none []

/-- Fixture: a resolver for the x route module declaring its handler
under the given method name. -/
def resolveX (k : Str) : Resolver :=
  fun p => if p == fpX then some (JsModule.mk (some [(k, HVal.fn (strOf ("h")))])) else none

/-- Fixture: a handler directory holding one good route directory and
one malformed root entry file whose import rejects. -/
def treeBuild : List FSEntry :=
  [FSEntry.dir (strOf ("a"))
    [FSEntry.file (strOf ("index.js")) (some (JsModule.mk (some [(strOf ("GET"), HVal.fn (strOf ("hA")))])))],
   FSEntry.file (strOf ("index.js")) none]

/-- Fixture: a handler directory whose only entry file sits directly
in the handlers root. -/
def treeRootOnly : List FSEntry :=
  [FSEntry.file (strOf ("index.js")) (some (JsModule.mk (some [(strOf ("GET"), HVal.fn (strOf ("h")))])))]

/-- Keys produced by prefixing a slash begin with a slash. -/
theorem headSlash_slash_append (x : Str) : headSlash (strOf ("/") ++ x) = true := rfl

/-- Keys produced by prefixing slash-colon begin with a slash. -/
theorem headSlash_slashcolon_append (x : Str) : headSlash (strOf ("/:") ++ x) = true := rfl

/-- Every routing key the compiler derives from a directory segment
begins with a slash. -/
theorem headSlash_segmentKey (s : Str) : headSlash (segmentKey s) = true := by
  unfold segmentKey formatSegment
  split
  · split
    · exact headSlash_slashcolon_append _
    · exact headSlash_slash_append _
  · exact headSlash_slash_append _

/-- Property assignment with a slash-prefixed key preserves the
all-keys-slash invariant. -/
theorem allKeysSlash_setProp (o : JsObj) (k : Str) (v : JsVal)
    (h : allKeysSlash o = true) (hk : headSlash k = true) :
    allKeysSlash (setProp o k v) = true := by
  unfold setProp
  split
  · unfold allKeysSlash at h ⊢
    rw [List.all_map]
    rw [List.all_eq_true] at h ⊢
    intro kv hm
    have hkv := h kv hm
    by_cases hb : (kv.1 == k) = true
    · simp [Function.comp, hb, hk]
    · simp only [Function.comp]
      rw [if_neg hb]
      exact hkv
  · unfold allKeysSlash at h ⊢
    rw [List.all_append, h]
    simp [hk]

/-- The segment walk of insertRoute preserves the all-keys-slash
invariant of the top level of the tree. -/
theorem allKeysSlash_insertSegs (segs : List Str) (o : JsObj) (m fp : Str)
    (h : allKeysSlash o = true) : allKeysSlash (insertSegs o segs m fp) = true := by
  match segs with
  | [] => exact h
  | [seg] =>
    exact allKeysSlash_setProp _ _ _ h (headSlash_segmentKey seg)
  | seg :: s2 :: rest =>
    exact allKeysSlash_setProp _ _ _ h (headSlash_segmentKey seg)

/-- insertRoute preserves the all-keys-slash invariant. -/
theorem allKeysSlash_insertRoute (o : JsObj) (p m fp : Str)
    (h : allKeysSlash o = true) : allKeysSlash (insertRoute o p m fp) = true :=
  allKeysSlash_insertSegs _ _ _ _ h

/-- Registering every method of a loaded module preserves the
all-keys-slash invariant. -/
theorem allKeysSlash_registerModuleMethods (tbl : List (Str × HVal)) (nested : JsObj)
    (basePath fp : Str) (h : allKeysSlash nested = true) :
    allKeysSlash (registerModuleMethods nested tbl basePath fp) = true := by
  induction tbl generalizing nested with
  | nil => exact h
  | cons kv t ih =>
    unfold registerModuleMethods at ih ⊢
    rw [List.foldl_cons]
    exact ih _ (allKeysSlash_insertRoute _ _ _ _ h)

/-- The lib compiler only ever creates slash-prefixed top-level keys:
every registry it produces from a tree satisfies the all-keys-slash
invariant when the accumulator does. -/
theorem allKeysSlash_loadRoutes (fuel : Nat) (nested : JsObj) (dp : Str)
    (entries : List FSEntry) (bl : Option (List Str)) (basePath : Str)
    (h : allKeysSlash nested = true) :
    allKeysSlash (loadRoutes fuel nested dp entries bl basePath) = true := by
  induction fuel generalizing nested dp entries basePath with
  | zero => exact h
  | succ fuel ih =>
    match entries with
    | [] => exact h
    | FSEntry.dir name sub :: rest =>
      unfold loadRoutes
      split
      · exact ih _ _ _ _ h
      · exact ih _ _ _ _ (ih _ _ _ _ h)
    | FSEntry.file name mod :: rest =>
      unfold loadRoutes
      refine ih _ _ _ _ ?_
      split
      · match mod with
        | none => exact h
        | some m =>
          match hm : m.methods with
          | none => simp only [hm]; exact h
          | some tbl => simp only [hm]; exact allKeysSlash_registerModuleMethods _ _ _ _ h
      · exact h

/-- Looking up a key that does not begin with a slash in an object all
of whose keys do yields undefined. -/
theorem jsGet_none_of_headSlash (l : JsObj) (M : Str)
    (h : allKeysSlash l = true) (hM : headSlash M = false) : jsGet l M = none := by
  induction l with
  | nil => rfl
  | cons kv t ih =>
    unfold allKeysSlash at h
    rw [List.all_cons] at h
    have hk : headSlash kv.1 = true := by
      cases hb : headSlash kv.1
      · rw [hb] at h; simp at h
      · rfl
    have ht : allKeysSlash t = true := by
      unfold allKeysSlash
      cases hb : t.all (fun kv => headSlash kv.1)
      · rw [hk, hb] at h; simp at h
      · rfl
    unfold jsGet
    rw [List.find?_cons]
    by_cases hb : (kv.1 == M) = true
    · have : kv.1 = M := eq_of_beq hb
      rw [this] at hk
      rw [hk] at hM
      exact absurd hM (by simp)
    · rw [Bool.not_eq_true] at hb
      rw [hb]
      exact ih ht

/-- Claim C1: the spec says a null allowedMethods whitelist lets every
method through.  The code does the opposite: with allowedMethods null
the conjunction in isSupportedHTTPMethod is falsy for every method,
so retrieveHandlerFromURLPath throws the 405 error for every
registry, path and method, and doesEndpointExist is always false.
The whitelist check rejects everything, not nothing, when no
whitelist is configured. -/
theorem c1_null_whitelist_rejects_every_method :
    ∀ (reg : JsVal) (resolve : Resolver) (path m : Str),
      retrieveHandlerFromURLPath (Router.mk reg none) resolve path (formatHTTPMethod m)
          = Except.error (RouteError.structured false (strOf ("NOT_ALLOWED")) 405)
        ∧ doesEndpointExist (Router.mk reg none) resolve path m = false :=
  fun _ _ _ _ => ⟨rfl, rfl⟩

/-- Claim C2: with GET whitelisted, a POST request to a path holding a
registered POST handler is rejected by the internal method check with
the structured 405 error, but simulatePathRequest catches it and
rethrows the structured NOT_FOUND 404 error, so the caller observes a
404, not the 405 the claim states.  The same route resolves once POST
is whitelisted, confirming the rejection is purely the whitelist. -/
theorem c2_whitelist_rejection_surfaces_as_404 :
    simulatePathRequest (Router.mk (JsVal.obj regA) (some [strOf ("GET")])) resolveA
        (strOf ("/a")) (strOf ("POST")) []
        = Except.error (RouteError.structured false (strOf ("NOT_FOUND")) 404)
      ∧ retrieveHandlerFromURLPath (Router.mk (JsVal.obj regA) (some [strOf ("GET")])) resolveA
          (strOf ("/a")) (formatHTTPMethod (strOf ("POST")))
        = Except.error (RouteError.structured false (strOf ("NOT_ALLOWED")) 405)
      ∧ doesEndpointExist (Router.mk (JsVal.obj regA) (some [strOf ("POST")])) resolveA
          (strOf ("/a")) (strOf ("POST")) = true :=
  ⟨rfl, rfl, rfl⟩

/-- Claim C3: matching the request path users 4124 against the
registry compiled from the directory path users bracket userId does
extract the binding of userId to 4124, and a direct matchRoute call
merges it into a caller request with pre-existing params, extracted
values winning collisions.  But dispatch never hands the caller
request to the matcher: simulatePathRequest delivers the request to
the handler with its params untouched, the userId binding absent. -/
theorem c3_bindings_extracted_but_not_merged_at_dispatch :
    matchRoute (JsVal.obj regUsers) (strOf ("/users/4124"))
        [(strOf ("params"), JsVal.obj
          [(strOf ("userId"), JsVal.str (strOf ("x"))), (strOf ("z"), JsVal.str (strOf ("1")))])]
      = (some (JsVal.obj [(strOf ("GET"), JsVal.obj [(strOf ("filePath"), JsVal.str fpUsers)])]),
         [(strOf ("params"), JsVal.obj
          [(strOf ("userId"), JsVal.str (strOf ("4124"))), (strOf ("z"), JsVal.str (strOf ("1")))])])
      ∧ simulatePathRequest routerUsers resolveUsers (strOf ("/users/4124")) (strOf ("GET"))
          [(strOf ("params"), JsVal.obj [(strOf ("userId"), JsVal.str (strOf ("x")))])]
        = Except.ok (strOf ("getUser"),
            [(strOf ("params"), JsVal.obj [(strOf ("userId"), JsVal.str (strOf ("x")))])]) :=
  ⟨rfl, rfl⟩

/-- Claim C4: exact match takes precedence over dynamic.  Whenever the
current level owns a child keyed by slash plus the segment, the
matcher descends into it, whatever else the level holds; and in the
concrete two-sibling registry, with the dynamic child listed first,
the request segment users resolves via the literal branch and binds
no parameter. -/
theorem c4_exact_over_dynamic :
    (∀ (l : JsObj) (seg : Str) (rest : List Str) (params : JsObj) (next : JsVal),
        jsGet l (strOf ("/") ++ seg) = some next →
        matchLoop (JsVal.obj l) (seg :: rest) params = matchLoop next rest params)
      ∧ matchLoop regSiblings [strOf ("users")] [] = some (litNode, [])
      ∧ matchRoute regSiblings (strOf ("/users")) reqEmptyParams = (some litNode, reqEmptyParams) := by
  refine ⟨?_, rfl, rfl⟩
  intro l seg rest params next h
  simp only [matchLoop, getProp]
  rw [h]

/-- Witness for claim C4: the exact-precedence rule applied at a
concrete level owning the literal child users. -/
theorem c4_exact_over_dynamic_witness :
    jsGet [(strOf ("/users"), litNode)] (strOf ("/") ++ strOf ("users")) = some litNode
      ∧ matchLoop (JsVal.obj [(strOf ("/users"), litNode)]) [strOf ("users")] []
        = matchLoop litNode [] [] :=
  ⟨rfl, c4_exact_over_dynamic.1 _ _ _ _ _ rfl⟩

/-- Counterexample for claim C5: a route file declaring its handler
under the lowercase name get compiles to a registry storing the
method exactly as authored, yet neither the request get nor the
request GET resolves: the dispatcher uppercases the request and looks
it up case-sensitively, so the stored lowercase entry is unreachable
for every request casing, refuting effective case-insensitivity. -/
theorem c5_lowercase_declared_method_unreachable :
    doesEndpointExist (Router.mk (JsVal.obj (regX (strOf ("get")))) (some [strOf ("GET")]))
        (resolveX (strOf ("get"))) (strOf ("/x")) (strOf ("get")) = false
      ∧ doesEndpointExist (Router.mk (JsVal.obj (regX (strOf ("get")))) (some [strOf ("GET")]))
        (resolveX (strOf ("get"))) (strOf ("/x")) (strOf ("GET")) = false
      ∧ regX (strOf ("get"))
        = [(strOf ("/x"), JsVal.obj [(strOf ("get"), JsVal.obj [(strOf ("filePath"), JsVal.str fpX)])])] :=
  ⟨rfl, rfl, rfl⟩

/-- Claim C5 amended: method lookup is case-sensitive against the
stored table with only the request side uppercased.  Over the
registry compiled from a route file declaring one handler under an
arbitrary method name, a request resolves exactly when its uppercased
form equals the stored name as authored; in particular a handler
declared under any name that is not already uppercase never
resolves. -/
theorem c5_method_lookup_case_sensitive :
    ∀ (m k : Str),
      doesEndpointExist (Router.mk (JsVal.obj (regX k)) (some [formatHTTPMethod m]))
        (resolveX k) (strOf ("/x")) m = (formatHTTPMethod m == k) := by
  intro m k
  have hmatch : (matchRoute (JsVal.obj (regX k)) (strOf ("/x")) []).1
      = some (JsVal.obj [(k, JsVal.obj [(strOf ("filePath"), JsVal.str fpX)])]) := rfl
  have hsup : isSupportedHTTPMethod (Router.mk (JsVal.obj (regX k)) (some [formatHTTPMethod m]))
      (formatHTTPMethod m) = true := by
    simp [isSupportedHTTPMethod, List.contains]
  by_cases h : formatHTTPMethod m = k
  · subst h
    have hvalid : validRouteNode
        (some (JsVal.obj [(formatHTTPMethod m, JsVal.obj [(strOf ("filePath"), JsVal.str fpX)])]))
        (formatHTTPMethod m) = true := by
      simp [validRouteNode, jsGet, truthy, getProp, fpX, strOf]
    have hpath : retrieveRouteNodePath
        (some (JsVal.obj [(formatHTTPMethod m, JsVal.obj [(strOf ("filePath"), JsVal.str fpX)])]))
        (formatHTTPMethod m) = some (JsVal.str fpX) := by
      simp [retrieveRouteNodePath, getProp, jsGet]
    have hret : retrieveHandlerFromURLPath (Router.mk (JsVal.obj (regX (formatHTTPMethod m)))
        (some [formatHTTPMethod m])) (resolveX (formatHTTPMethod m)) (strOf ("/x")) (formatHTTPMethod m)
        = Except.ok (strOf ("h")) := by
      unfold retrieveHandlerFromURLPath
      rw [hsup]
      simp only [if_true, hmatch, hvalid]
      simp only [hpath]
      simp [retrieveModuleFromFile, resolveX, retrieveHandlerFromModule, modGet]
    unfold doesEndpointExist
    rw [hret]
    simp
  · have hvalid : validRouteNode
        (some (JsVal.obj [(k, JsVal.obj [(strOf ("filePath"), JsVal.str fpX)])]))
        (formatHTTPMethod m) = false := by
      simp [validRouteNode, jsGet]
      rw [if_neg (fun hc => h hc.symm)]
    have hret : retrieveHandlerFromURLPath (Router.mk (JsVal.obj (regX k))
        (some [formatHTTPMethod m])) (resolveX k) (strOf ("/x")) (formatHTTPMethod m)
        = Except.error RouteError.jsError := by
      unfold retrieveHandlerFromURLPath
      rw [hsup]
      simp only [if_true, hmatch, hvalid]
      simp
    unfold doesEndpointExist
    rw [hret]
    symm
    rw [beq_eq_false_iff_ne]
    exact h

/-- Claim C6 on the lib builder: an entry file whose import rejects,
or whose default export is unusable, is skipped and compilation of
the remaining entries continues; a missing handlers root makes the
call reject with the validation error before the try block; but an
unwritable registry output does not reject: the write failure is
caught and logged inside the try block and the promise resolves
normally with no value, while a succeeding run resolves with the
compiled registry.  The claim states the write failure rejects; the
third conjunct evaluates the code at that failing input and shows the
call resolving. -/
theorem c6_build_failure_policy :
    (∀ (fuel : Nat) (nested : JsObj) (dp : Str) (rest : List FSEntry)
        (bl : Option (List Str)) (basePath : Str),
      loadRoutes (fuel + 1) nested dp (FSEntry.file (strOf ("index.js")) none :: rest) bl basePath
          = loadRoutes fuel nested dp rest bl basePath
        ∧ loadRoutes (fuel + 1) nested dp
            (FSEntry.file (strOf ("index.js")) (some (JsModule.mk none)) :: rest) bl basePath
          = loadRoutes fuel nested dp rest bl basePath)
      ∧ (∀ (entries : List FSEntry) (w : Bool) (bl : Option (List Str)) (fuel : Nat) (hd : Bool),
          buildEndpointRoutes (BuildEnv.mk true true false hd entries w) bl fuel
            = Except.error (strOf ("Path does not exist")))
      ∧ buildEndpointRoutes (BuildEnv.mk true true true true treeBuild false) none 5 = Except.ok none
      ∧ buildEndpointRoutes (BuildEnv.mk true true true true treeBuild true) none 5
        = Except.ok (some [(strOf ("/a"), JsVal.obj [(strOf ("GET"),
            JsVal.obj [(strOf ("filePath"), JsVal.str (strOf ("endpoints/a/index.js")))])])]) :=
  ⟨fun _ _ _ _ _ _ => ⟨rfl, rfl⟩, fun _ _ _ _ _ => rfl, rfl, rfl⟩

/-- Claim C7: with the default null blacklist the legacy exclusion
filter of src/index.js line 294 raises a TypeError the moment a
subdirectory is examined, so the legacy compiler cannot traverse any
nested tree under its default configuration; the lib compiler treats
a null blacklist as excluding nothing and compiles every tree to
exactly the registry an empty blacklist produces. -/
theorem c7_null_blacklist :
    legacyBlacklistIndexOf none (strOf ("users"))
        = Except.error (strOf ("TypeError: cannot read indexOf of null"))
      ∧ ∀ (fuel : Nat) (nested : JsObj) (dp : Str) (entries : List FSEntry) (basePath : Str),
          loadRoutes fuel nested dp entries none basePath
            = loadRoutes fuel nested dp entries (some []) basePath := by
  refine ⟨rfl, ?_⟩
  intro fuel
  induction fuel with
  | zero => intro nested dp entries basePath; rfl
  | succ fuel ih =>
    intro nested dp entries basePath
    match entries with
    | [] => rfl
    | FSEntry.dir name sub :: rest =>
      show loadRoutes fuel (loadRoutes fuel nested (dp ++ strOf ("/") ++ name) sub none
          (basePath ++ strOf ("/") ++ name)) dp rest none basePath
        = loadRoutes fuel (loadRoutes fuel nested (dp ++ strOf ("/") ++ name) sub (some [])
          (basePath ++ strOf ("/") ++ name)) dp rest (some []) basePath
      rw [ih, ih]
    | FSEntry.file name mod :: rest =>
      exact ih _ _ _ _

/-- Claim C8: doesEndpointExist is a total boolean function of its
inputs, true exactly when handler retrieval succeeds, and every
error thrown inside retrieval, whatever its kind, is converted to
the return value false. -/
theorem c8_exists_converts_every_failure_to_false :
    ∀ (r : Router) (resolve : Resolver) (path m : Str),
      doesEndpointExist r resolve path m
          = (retrieveHandlerFromURLPath r resolve path (formatHTTPMethod m)).isOk
        ∧ (∀ e, retrieveHandlerFromURLPath r resolve path (formatHTTPMethod m) = Except.error e →
            doesEndpointExist r resolve path m = false) := by
  intro r resolve path m
  constructor
  · unfold doesEndpointExist
    cases h : retrieveHandlerFromURLPath r resolve path (formatHTTPMethod m) <;>
      simp [Except.isOk, Except.toBool]
  · intro e he
    unfold doesEndpointExist
    rw [he]

/-- Witness for claim C8: over an empty registry with a null
whitelist the retrieval fails with the structured 405 error and the
existence check returns false. -/
theorem c8_exists_converts_every_failure_to_false_witness :
    doesEndpointExist (Router.mk (JsVal.obj []) none) (fun _ => none)
      (strOf ("/a")) (strOf ("get")) = false :=
  (c8_exists_converts_every_failure_to_false (Router.mk (JsVal.obj []) none) (fun _ => none)
      (strOf ("/a")) (strOf ("get"))).2
    (RouteError.structured false (strOf ("NOT_ALLOWED")) 405) rfl

/-- Claim C9: an entry file directly in the handlers root contributes
nothing to the registry.  Its accumulated route path is the empty
string, which splits into no segments, so insertRoute returns the
tree unchanged; concretely a root-only tree compiles to the empty
registry; and since every key the compiler ever creates begins with a
slash while no uppercased method does, a request for the root path,
which matches the registry root itself, never passes validRouteNode,
for any compiled registry, method and whitelist. -/
theorem c9_root_entry_never_servable :
    (∀ (o : JsObj) (m fp : Str), insertRoute o (strOf ("")) m fp = o)
      ∧ (∀ (dp : Str) (bl : Option (List Str)), loadRoutes 2 [] dp treeRootOnly bl [] = [])
      ∧ ∀ (fuel : Nat) (dp : Str) (entries : List FSEntry) (bl : Option (List Str)) (m : Str),
          headSlash (formatHTTPMethod m) = false →
          validRouteNode
            (matchRoute (JsVal.obj (loadRoutes fuel [] dp entries bl [])) (strOf ("/")) []).1
            (formatHTTPMethod m) = false := by
  refine ⟨fun _ _ _ => rfl, fun _ _ => rfl, ?_⟩
  intro fuel dp entries bl m hM
  have hall : allKeysSlash (loadRoutes fuel [] dp entries bl []) = true :=
    allKeysSlash_loadRoutes fuel [] dp entries bl [] rfl
  have hnone := jsGet_none_of_headSlash _ _ hall hM
  show validRouteNode (some (JsVal.obj (loadRoutes fuel [] dp entries bl [])))
    (formatHTTPMethod m) = false
  simp [validRouteNode, hnone]

/-- Witness for claim C9: the uppercased method GET does not begin
with a slash, and over the compiled root-only tree the root request
fails validation. -/
theorem c9_root_entry_never_servable_witness :
    headSlash (formatHTTPMethod (strOf ("GET"))) = false
      ∧ validRouteNode
          (matchRoute (JsVal.obj (loadRoutes 2 [] (strOf ("endpoints")) treeRootOnly none []))
            (strOf ("/")) []).1 (formatHTTPMethod (strOf ("GET"))) = false :=
  ⟨rfl, c9_root_entry_never_servable.2.2 2 (strOf ("endpoints")) treeRootOnly none
    (strOf ("GET")) rfl⟩

/-- Claim C10: matchRoute is atomic on failure.  The extracted
bindings live in a local object during the descent and are injected
into the request object only after the final segment has matched, so
whenever the match result is null the caller request comes back
exactly as it went in. -/
theorem c10_matchRoute_atomic_on_failure :
    ∀ (reg : JsVal) (path : Str) (req : JsObj),
      (matchRoute reg path req).1 = none → (matchRoute reg path req).2 = req := by
  intro reg path req h
  unfold matchRoute at h ⊢
  cases hm : matchLoop reg (splitSegments path) [] with
  | none => rfl
  | some x =>
    obtain ⟨node, params⟩ := x
    rw [hm] at h
    exfalso
    cases hg : jsGet req (strOf ("params")) with
    | none => rw [hg] at h; simp at h
    | some pv =>
      rw [hg] at h
      by_cases ht : truthy pv = true
      · simp [ht] at h
      · simp [ht] at h

/-- Witness for claim C10: a failing match over the empty registry
leaves a request with pre-existing params untouched. -/
theorem c10_matchRoute_atomic_on_failure_witness :
    (matchRoute (JsVal.obj []) (strOf ("/nope")) reqEmptyParams).1 = none
      ∧ (matchRoute (JsVal.obj []) (strOf ("/nope")) reqEmptyParams).2 = reqEmptyParams :=
  ⟨rfl, c10_matchRoute_atomic_on_failure (JsVal.obj []) (strOf ("/nope")) reqEmptyParams rfl⟩
